import Mathlib

/-!
Verification of the T81Lang compiler core (`t81_compile.py`) against its
natural-language specification.

The development shallowly embeds the compiler's data model and operations:

* the tokenizer (`TOKEN_SPEC`, `tokenize`) — Python's `re.finditer` over an
  alternation of named groups, modelled as an ordered first-match scanner
  (`matchFirst`, `scan`).  The source's `SYMBOL` character class is
  `[⍺-⍵βγδθσφψΩ]`, whose range endpoints are `'⍺' = U+237A` and
  `'⍵' = U+2375` in that order; Python's `re` rejects a character range whose
  first endpoint exceeds the second (`re.error: bad character range`), and the
  pattern is compiled on every `tokenize` call, so the source's `tokenize`
  raises on every input.  `tokenize` below therefore guards the scan with the
  range-validity check and returns `none` (the exception) when it fails.
* the parser family (`parse_expression`, `parse_let_statement`,
  `parse_return_statement`, `parse_function`, `parse_program`).  Python
  exceptions (`IndexError`, `ValueError`, `AssertionError`) are modelled as
  `none`; the process-wide `entropy_log` is threaded explicitly as a
  `List AnnotationRecord` argument and result.
* the code generator (`emit_tisc`), returning `Option String`: the Python
  function falls off the end (returns `None`) on an `Unknown` node, and the
  f-strings that interpolate that result render `None` as the text `"None"`
  (`pyStr`), while `'\n'.join` over a `None` element raises (`Option.bind`).
* the module-descriptor emitter (`generate_cweb_module`).  The Python dict
  stores the `entropy_log` *object reference* under `"@symbols"`; aliasing is
  made explicit by a one-cell heap (`PyState`) and a reference value
  (`LogRef`) dereferenced by `moduleSymbols`.
-/

/-- Token kinds, one per named group of `TOKEN_SPEC` in source order. -/
inductive TokKind
  | NUMBER
  | SYMBOL
  | IDENT
  | OP
  | LPAREN
  | RPAREN
  | LBRACE
  | RBRACE
  | COLON
  | ARROW
  | SEMICOLON
  | EQUAL
  | AT
  | FLOAT
  | WHITESPACE
deriving DecidableEq, Repr

/-- Tokens are `(kind, value)` pairs, as appended by `tokenize`. -/
abbrev Token := TokKind × String

/-- Digit character class `[0-9]`. -/
def isDigitCh (c : Char) : Bool := c.isDigit

/-- ASCII letter class `[a-zA-Z]`. -/
def isAlphaCh (c : Char) : Bool := c.isAlpha

/-- Identifier start class `[a-zA-Z_]`. -/
def isIdentStart (c : Char) : Bool := isAlphaCh c || c = '_'

/-- Identifier continuation class `[a-zA-Z0-9_]`. -/
def isIdentCont (c : Char) : Bool := isIdentStart c || isDigitCh c

/-- Operator class `[+\-*/=<>!]`. -/
def isOpCh (c : Char) : Bool := ['+', '-', '*', '/', '=', '<', '>', '!'].contains c

/-- Content of the `SYMBOL` class `[⍺-⍵βγδθσφψΩ]`: the range part is read as
the set of codepoints between its endpoints, which is empty because
`'⍺' = U+237A` exceeds `'⍵' = U+2375` (Python instead rejects the whole
pattern; `tokenize` accounts for that), plus the eight listed letters. -/
def isSymbolCh (c : Char) : Bool :=
  (decide ('⍺' ≤ c) && decide (c ≤ '⍵')) ||
    ['β', 'γ', 'δ', 'θ', 'σ', 'φ', 'ψ', 'Ω'].contains c

/-- Whitespace class `\s` (ASCII part: space, tab, newline, carriage return,
vertical tab, form feed). -/
def isWsCh (c : Char) : Bool :=
  [' ', '\t', '\n', '\r', '\x0b', '\x0c'].contains c

/-- Splits off the maximal prefix of characters satisfying `p` (the greedy
`+`/`*` of a character class; no backtracking is needed because in every
pattern below the character after the run is never in the run's class). -/
def takeRun (p : Char → Bool) : List Char → List Char × List Char
  | [] => ([], [])
  | c :: cs =>
    if p c then
      let r := takeRun p cs
      (c :: r.1, r.2)
    else ([], c :: cs)

/-- Matches `p+` (one or more characters of a class); returns the lexeme and
the remaining input. -/
def matchRun1 (p : Char → Bool) (cs : List Char) : Option (List Char × List Char) :=
  match takeRun p cs with
  | ([], _) => none
  | (l, r) => some (l, r)

/-- Pattern `NUMBER = [0-9]+t`. -/
def matchNumber (cs : List Char) : Option (List Char × List Char) :=
  match matchRun1 isDigitCh cs with
  | none => none
  | some (ds, rest) =>
    match rest with
    | 't' :: rest2 => some (ds ++ ['t'], rest2)
    | _ => none

/-- Pattern `SYMBOL = [⍺-⍵βγδθσφψΩ]+`. -/
def matchSymbol (cs : List Char) : Option (List Char × List Char) :=
  matchRun1 isSymbolCh cs

/-- Pattern `IDENT = [a-zA-Z_][a-zA-Z0-9_]*`. -/
def matchIdent (cs : List Char) : Option (List Char × List Char) :=
  match cs with
  | [] => none
  | c :: rest =>
    if isIdentStart c then
      let r := takeRun isIdentCont rest
      some (c :: r.1, r.2)
    else none

/-- Pattern `OP = [+\-*/=<>!]`. -/
def matchOp (cs : List Char) : Option (List Char × List Char) :=
  match cs with
  | [] => none
  | c :: rest => if isOpCh c then some ([c], rest) else none

/-- Matches one fixed character (the patterns `\(`, `\)`, `\{`, `\}`, `:`,
`;`, `=`). -/
def matchSingle (ch : Char) (cs : List Char) : Option (List Char × List Char) :=
  match cs with
  | [] => none
  | c :: rest => if c = ch then some ([c], rest) else none

/-- Pattern `ARROW = ->`. -/
def matchArrow (cs : List Char) : Option (List Char × List Char) :=
  match cs with
  | c1 :: c2 :: rest => if c1 = '-' && c2 = '>' then some ([c1, c2], rest) else none
  | _ => none

/-- Pattern `AT = @[a-zA-Z_]+`. -/
def matchAtSign (cs : List Char) : Option (List Char × List Char) :=
  match cs with
  | '@' :: rest =>
    match matchRun1 (fun c => isAlphaCh c || c = '_') rest with
    | none => none
    | some (l, r) => some ('@' :: l, r)
  | _ => none

/-- Pattern `FLOAT = [0-9]+\.[0-9]+`. -/
def matchFloat (cs : List Char) : Option (List Char × List Char) :=
  match matchRun1 isDigitCh cs with
  | none => none
  | some (d1, rest) =>
    match rest with
    | '.' :: rest2 =>
      match matchRun1 isDigitCh rest2 with
      | none => none
      | some (d2, rest3) => some (d1 ++ '.' :: d2, rest3)
    | _ => none

/-- Pattern `WHITESPACE = \s+`. -/
def matchWs (cs : List Char) : Option (List Char × List Char) :=
  matchRun1 isWsCh cs

/-- Tries the `TOKEN_SPEC` alternatives at the current position in their
source order and returns the first match (Python alternation is
first-match, not longest-match). -/
def matchFirst (cs : List Char) : Option (TokKind × List Char × List Char) :=
  match matchNumber cs with
  | some (l, r) => some (TokKind.NUMBER, l, r)
  | none =>
  match matchSymbol cs with
  | some (l, r) => some (TokKind.SYMBOL, l, r)
  | none =>
  match matchIdent cs with
  | some (l, r) => some (TokKind.IDENT, l, r)
  | none =>
  match matchOp cs with
  | some (l, r) => some (TokKind.OP, l, r)
  | none =>
  match matchSingle '(' cs with
  | some (l, r) => some (TokKind.LPAREN, l, r)
  | none =>
  match matchSingle ')' cs with
  | some (l, r) => some (TokKind.RPAREN, l, r)
  | none =>
  match matchSingle '\x7b' cs with
  | some (l, r) => some (TokKind.LBRACE, l, r)
  | none =>
  match matchSingle '\x7d' cs with
  | some (l, r) => some (TokKind.RBRACE, l, r)
  | none =>
  match matchSingle ':' cs with
  | some (l, r) => some (TokKind.COLON, l, r)
  | none =>
  match matchArrow cs with
  | some (l, r) => some (TokKind.ARROW, l, r)
  | none =>
  match matchSingle ';' cs with
  | some (l, r) => some (TokKind.SEMICOLON, l, r)
  | none =>
  match matchSingle '=' cs with
  | some (l, r) => some (TokKind.EQUAL, l, r)
  | none =>
  match matchAtSign cs with
  | some (l, r) => some (TokKind.AT, l, r)
  | none =>
  match matchFloat cs with
  | some (l, r) => some (TokKind.FLOAT, l, r)
  | none =>
  match matchWs cs with
  | some (l, r) => some (TokKind.WHITESPACE, l, r)
  | none => none

/-- Left-to-right scan of `re.finditer`: at each position emit the first
matching alternative (dropping `WHITESPACE` matches, as `tokenize` does) and
continue after it, or silently skip one character when no alternative
matches.  Every match consumes at least one character, so a fuel of the
input length suffices. -/
def scanAux : Nat → List Char → List Token
  | 0, _ => []
  | _ + 1, [] => []
  | fuel + 1, c :: cs =>
    match matchFirst (c :: cs) with
    | some (k, l, r) =>
      if k = TokKind.WHITESPACE then scanAux fuel r
      else (k, String.mk l) :: scanAux fuel r
    | none => scanAux fuel cs

/-- Token stream the compiled `TOKEN_SPEC` alternation would produce. -/
def scan (s : String) : List Token := scanAux s.data.length s.data

/-- Validity of a regex character range `lo-hi`: Python's `re` raises
`re.error ("bad character range")` when the first endpoint's codepoint
exceeds the second's. -/
def classRangeValid (lo hi : Char) : Bool := lo.toNat ≤ hi.toNat

/-- Whether the source's `tok_regex` compiles: its only character range is
`⍺-⍵` inside the `SYMBOL` class, with `'⍺' = U+237A` and `'⍵' = U+2375`. -/
def tokRegexCompiles : Bool := classRangeValid '⍺' '⍵'

/-- Source `tokenize`: `re.finditer(tok_regex, code)` compiles the pattern on
every call, so an invalid pattern raises `re.error` (modelled `none`) before
any token is produced; otherwise the scan runs and whitespace is dropped. -/
def tokenize (s : String) : Option (List Token) :=
  if tokRegexCompiles then some (scan s) else none

/-- Annotation Record appended by `log_entropy`: `{symbol, entropy, tag}`.
The entropy value (a Python float parsed from a decimal lexeme) is modelled
as an exact rational; see `pyFloatOfString`. -/
structure AnnotationRecord where
  symbol : String
  entropy : Option ℚ
  tag : Option String
deriving DecidableEq, Repr

/-- AST nodes: one case per `node_type` the source ever constructs, each
carrying the fields the source stores in the untyped field bag.  `Program`
holds its functions directly: the source stores `fn.to_dict()` and rebuilds
`ASTNode("Function", **fn)` in `emit_tisc`, a round trip that preserves
every field. -/
inductive ASTNode
  | Program (functions : List ASTNode)
  | Function (name : String) (params : List (String × String)) (returns : String)
      (body : List ASTNode)
  | Let (name : String) (typeHint : Option String) (expr : ASTNode)
      (entropy : Option ℚ) (tag : Option String)
  | Return (expr : ASTNode)
  | BinaryExpr (left op right : String)
  | Literal (value : String)
  | Unknown
deriving Repr

/-- Numeric value of a digit run. -/
def digitsVal (ds : List Char) : Nat :=
  ds.foldl (fun a c => 10 * a + (c.toNat - '0'.toNat)) 0

/-- Models Python `float(s)` on the decimal lexemes the tokenizer can feed
it: `[0-9]+` and `[0-9]+.[0-9]+`, read as an exact rational (the binary
rounding of IEEE doubles is irrelevant here: no claim compares distinct
floats, and zeroness of such a short decimal coincides with zeroness of the
rational).  Any other string models `ValueError`, i.e. `none`;
`pyFloatOfString` below is the parser and `ratOfScaled n k` builds the exact
value `n / 10 ^ k` in lowest terms. -/
def ratOfScaled (n k : Nat) : ℚ :=
  Rat.mk' ((n / Nat.gcd n (10 ^ k) : Nat) : Int) ((10 ^ k) / Nat.gcd n (10 ^ k))
    (by
      have h10 : 0 < 10 ^ k := Nat.pos_pow_of_pos k (by decide)
      have hg : 0 < Nat.gcd n (10 ^ k) := Nat.gcd_pos_of_pos_right n h10
      exact Nat.ne_of_gt
        (Nat.div_pos (Nat.le_of_dvd h10 (Nat.gcd_dvd_right n (10 ^ k))) hg))
    (by
      have h10 : 0 < 10 ^ k := Nat.pos_pow_of_pos k (by decide)
      have hg : 0 < Nat.gcd n (10 ^ k) := Nat.gcd_pos_of_pos_right n h10
      simpa using Nat.coprime_div_gcd_div_gcd hg)

/-- Parses the decimal forms `[0-9]+` and `[0-9]+.[0-9]+` into an exact
rational, modelling Python `float(s)` on the lexemes relevant here. -/
def pyFloatOfString (s : String) : Option ℚ :=
  match takeRun isDigitCh s.data with
  | ([], _) => none
  | (d1, rest) =>
    match rest with
    | [] => some (ratOfScaled (digitsVal d1) 0)
    | '.' :: rest2 =>
      match takeRun isDigitCh rest2 with
      | ([], _) => none
      | (d2, rest3) =>
        if rest3 = [] then
          some (ratOfScaled (digitsVal d1 * 10 ^ d2.length + digitsVal d2) d2.length)
        else none
    | _ => none

/-- Models Python `s.strip('"')`: removes every leading and trailing double
quote. -/
def pyStripQuotes (s : String) : String :=
  String.mk (((s.data.dropWhile (fun c => c = '"')).reverse.dropWhile
    (fun c => c = '"')).reverse)

/-- Python truthiness of the scanned entropy value (`None` and `0.0` are
falsy). -/
def entTruthy : Option ℚ → Bool
  | some q => decide (q ≠ 0)
  | none => false

/-- Python truthiness of the scanned tag value (`None` and `""` are falsy). -/
def tagTruthy : Option String → Bool
  | some s => decide (s ≠ "")
  | none => false

/-- Source `parse_expression`: classification purely by window length and
shape. -/
def parse_expression (tokens : List Token) : ASTNode :=
  match tokens with
  | [t] => ASTNode.Literal t.2
  | [a, b, c] =>
    if b.1 = TokKind.OP then ASTNode.BinaryExpr a.2 b.2 c.2 else ASTNode.Unknown
  | _ => ASTNode.Unknown

/-- Annotation scan of `parse_let_statement`: the `for i, t in
enumerate(tokens)` loop.  On a token whose lexeme is `"@entropy"` the source
reads `tokens[i+1]` (IndexError when absent, modelled `none`), and when that
token is an `LPAREN` it reads `tokens[i+2]` and `float`s its lexeme
(IndexError / ValueError modelled `none`), overwriting the accumulator;
symmetrically for `"@tag"` with `strip('"')`.  The loop advances one token
at a time regardless. -/
def scanA : List Token → Option ℚ → Option String → Option (Option ℚ × Option String)
  | [], e, tg => some (e, tg)
  | t :: rest, e, tg =>
    if t.2 = "@entropy" then
      match rest.head? with
      | none => none
      | some t1 =>
        if t1.1 = TokKind.LPAREN then
          match rest[1]? with
          | none => none
          | some t2 =>
            match pyFloatOfString t2.2 with
            | none => none
            | some q => scanA rest (some q) tg
        else scanA rest e tg
    else if t.2 = "@tag" then
      match rest.head? with
      | none => none
      | some t1 =>
        if t1.1 = TokKind.LPAREN then
          match rest[1]? with
          | none => none
          | some t2 => scanA rest e (some (pyStripQuotes t2.2))
        else scanA rest e tg
    else scanA rest e tg

/-- Annotation scan over a full statement window, starting from `None`
accumulators. -/
def scanAnnots (tokens : List Token) : Option (Option ℚ × Option String) :=
  scanA tokens none none

/-- Source `parse_let_statement`, with the process-wide `entropy_log`
threaded explicitly.  Positions: `tokens[0]` must be `let` (assert),
`tokens[1]` the name, `tokens[3]` the type hint when `tokens[2]` is a colon,
and the expression window is `tokens[5:-1]` (here `(rest.drop 2).dropLast`
with `rest = tokens[3:]`) regardless of whether a type hint is present.
A record is appended only when `entropy or tag` is truthy.  Any IndexError /
ValueError / AssertionError is `none`. -/
def parse_let_statement (log : List AnnotationRecord) (tokens : List Token) :
    Option (ASTNode × List AnnotationRecord) :=
  match tokens with
  | t0 :: t1 :: t2 :: rest =>
    if t0.2 = "let" then
      match (if t2.1 = TokKind.COLON then (rest.head?).map (fun t => some t.2)
             else some none) with
      | none => none
      | some typeHint =>
        match scanAnnots (t0 :: t1 :: t2 :: rest) with
        | none => none
        | some (entropy, tag) =>
          some (ASTNode.Let t1.2 typeHint
              (parse_expression ((rest.drop 2).dropLast)) entropy tag,
            if entTruthy entropy || tagTruthy tag then
              log ++ [{ symbol := t1.2, entropy := entropy, tag := tag }]
            else log)
    else none
  | _ => none

/-- Source `parse_return_statement`: asserts the keyword and delegates
`tokens[1:-1]` to the expression parser. -/
def parse_return_statement (tokens : List Token) : Option ASTNode :=
  match tokens with
  | t0 :: _ =>
    if t0.2 = "return" then
      some (ASTNode.Return (parse_expression ((tokens.drop 1).dropLast)))
    else none
  | [] => none

/-- Parameter decoding loop of `parse_function`, already positioned at index
1 of `param_tokens`: an `IDENT` followed by a `COLON` consumes a
`name : type` triple and advances three tokens; anything else advances one.
Reading `param_tokens[i+1]` or `[i+2]` past the end is an IndexError.  Each
step consumes at least one token and one unit of fuel, so the caller's fuel
(the window length) always suffices and the zero-fuel arm is unreachable. -/
def paramsLoop : Nat → List Token → Option (List (String × String))
  | _, [] => some []
  | 0, _ :: _ => none
  | fuel + 1, t :: rest =>
    if t.1 = TokKind.IDENT then
      match rest.head? with
      | none => none
      | some t1 =>
        if t1.1 = TokKind.COLON then
          match rest[1]? with
          | none => none
          | some t2 =>
            (paramsLoop fuel (rest.drop 2)).map (fun ps => (t.2, t2.2) :: ps)
        else paramsLoop fuel rest
    else paramsLoop fuel rest

/-- Splits a body window at its first `SEMICOLON` (inclusive), as the inner
`while body_tokens[end][0] != "SEMICOLON"` search does; running past the end
is an IndexError. -/
def splitSemi (acc : List Token) : List Token → Option (List Token × List Token)
  | [] => none
  | t :: rest =>
    if t.1 = TokKind.SEMICOLON then some (acc ++ [t], rest)
    else splitSemi (acc ++ [t]) rest

/-- Statement stream of `parse_function`: a `let` token opens a statement
ending at the next semicolon, a `return` token consumes exactly three
tokens, anything else is skipped. -/
def stmtLoop : Nat → List AnnotationRecord → List Token →
    Option (List ASTNode × List AnnotationRecord)
  | 0, log, _ => some ([], log)
  | _ + 1, log, [] => some ([], log)
  | fuel + 1, log, t :: rest =>
    if t.2 = "let" then
      match splitSemi [] (t :: rest) with
      | none => none
      | some (stmtToks, after) =>
        match parse_let_statement log stmtToks with
        | none => none
        | some (node, log2) =>
          match stmtLoop fuel log2 after with
          | none => none
          | some (nodes, log3) => some (node :: nodes, log3)
    else if t.2 = "return" then
      match parse_return_statement ((t :: rest).take 3) with
      | none => none
      | some node =>
        match stmtLoop fuel log ((t :: rest).drop 3) with
        | none => none
        | some (nodes, log2) => some (node :: nodes, log2)
    else stmtLoop fuel log rest

/-- Source `parse_function`.  `tokens.index(pair)` is first-occurrence
search for the exact `(kind, lexeme)` pair and raises ValueError when
absent; slice bounds follow Python slicing.  The body statements thread the
log. -/
def parse_function (log : List AnnotationRecord) (tokens : List Token) :
    Option (ASTNode × List AnnotationRecord) :=
  match tokens[1]? with
  | none => none
  | some t1 =>
    match tokens.findIdx? (fun t => t = (TokKind.RPAREN, ")")) with
    | none => none
    | some rpIdx =>
      let paramToks := (tokens.take rpIdx).drop 2
      match paramsLoop paramToks.length (paramToks.drop 1) with
      | none => none
      | some params =>
        match tokens.findIdx? (fun t => t = (TokKind.ARROW, "->")) with
        | none => none
        | some arrowIdx =>
          match tokens[arrowIdx + 1]? with
          | none => none
          | some tret =>
            match tokens.findIdx? (fun t => t = (TokKind.LBRACE, "\x7b")) with
            | none => none
            | some lbIdx =>
              match tokens.findIdx? (fun t => t = (TokKind.RBRACE, "\x7d")) with
              | none => none
              | some rbIdx =>
                let bodyToks := (tokens.take rbIdx).drop (lbIdx + 1)
                match stmtLoop bodyToks.length log bodyToks with
                | none => none
                | some (stmts, log2) =>
                  some (ASTNode.Function t1.2 params tret.2 stmts, log2)

/-- Function-span search of `parse_program`: brace-depth tracking from an
`fn` token; the span closes at the `RBRACE` that returns the depth to zero,
or extends to the end of the input when the depth never does. -/
def fnSpan (depth : Int) (acc : List Token) : List Token → List Token × List Token
  | [] => (acc.reverse, [])
  | t :: rest =>
    let depth2 :=
      if t.1 = TokKind.LBRACE then depth + 1
      else if t.1 = TokKind.RBRACE then depth - 1
      else depth
    if t.1 = TokKind.RBRACE && depth2 = 0 then ((t :: acc).reverse, rest)
    else fnSpan depth2 (t :: acc) rest

/-- Outer scan of `parse_program`: each `fn` token opens a function span
handed to `parse_function`; scanning resumes after the span. -/
def parse_programAux : Nat → List AnnotationRecord → List Token →
    Option (List ASTNode × List AnnotationRecord)
  | 0, log, _ => some ([], log)
  | _ + 1, log, [] => some ([], log)
  | fuel + 1, log, t :: rest =>
    if t.2 = "fn" then
      match fnSpan 0 [] (t :: rest) with
      | (span, after) =>
        match parse_function log span with
        | none => none
        | some (fnNode, log2) =>
          match parse_programAux fuel log2 after with
          | none => none
          | some (fns, log3) => some (fnNode :: fns, log3)
    else parse_programAux fuel log rest

/-- Source `parse_program`, threading the log. -/
def parse_program (log : List AnnotationRecord) (tokens : List Token) :
    Option (ASTNode × List AnnotationRecord) :=
  match parse_programAux tokens.length log tokens with
  | none => none
  | some (fns, log2) => some (ASTNode.Program fns, log2)

/-- Python `str()` of an optional string, as an f-string interpolates it:
`None` renders as the text `"None"`. -/
def pyStr : Option String → String
  | some s => s
  | none => "None"

/-- Rendering of a float value inside the `@entropy` comment line.  Python
renders floats by shortest round-trip repr; no theorem below depends on this
rendering, and it is modelled as the plain rational rendering. -/
def pyFloatRepr (q : ℚ) : String := toString q

mutual

/-- Source `emit_tisc`, a recursive tree walk keyed on `node_type`:

* `Program` — each function's text joined by a blank line; a `None` element
  would make `join` raise, hence the `Option` sequencing (`emitAll`).
* `Let` — optional `; @entropy(...)` and `; @tag("...")` comment lines
  (emitted only when the stored field is truthy, `fields.get(...)` under
  `if`), then the expression's text (a `None` result is interpolated as the
  text `"None"`), then `STORE name`.
* `BinaryExpr` / `Literal` / `Return` / `Function` — as in the source.
* `Unknown` — no branch matches and the Python function returns `None`. -/
def emit_tisc : ASTNode → Option String
  | ASTNode.Program fns =>
    match emitAll fns with
    | none => none
    | some l => some (String.intercalate "\n\n" l)
  | ASTNode.Let name _ expr entropy tag =>
    let meta :=
      (if entTruthy entropy then
        match entropy with
        | some q => "; @entropy(" ++ pyFloatRepr q ++ ")\n"
        | none => ""
      else "") ++
      (if tagTruthy tag then
        match tag with
        | some s => "; @tag(\"" ++ s ++ "\")\n"
        | none => ""
      else "")
    some (meta ++ (pyStr (emit_tisc expr) ++ ("\nSTORE " ++ name)))
  | ASTNode.BinaryExpr left op right =>
    some ("LOAD " ++ left ++ ("\n" ++ (op.toUpper ++ (" " ++ right))))
  | ASTNode.Literal v => some ("LOAD " ++ v)
  | ASTNode.Return expr => some (pyStr (emit_tisc expr) ++ "\nRETURN")
  | ASTNode.Function name _ returns body =>
    match emitAll body with
    | none => none
    | some l =>
      some ("FUNC " ++ name ++ (" RETURNS " ++ returns) ++
        ("\n" ++ (String.intercalate "\n" l ++ "\nENDFUNC")))
  | ASTNode.Unknown => none

/-- Sequencing of the generator expressions fed to `str.join`: a `None`
element raises `TypeError`. -/
def emitAll : List ASTNode → Option (List String)
  | [] => some []
  | x :: xs =>
    match emit_tisc x with
    | none => none
    | some s =>
      match emitAll xs with
      | none => none
      | some l => some (s :: l)

end

/-- Process state: the single process-wide mutable object, `entropy_log`. -/
structure PyState where
  entropy_log : List AnnotationRecord
deriving DecidableEq, Repr

/-- Reference values: the one heap cell a descriptor can point at (the
module-level `entropy_log` list object). -/
inductive LogRef
  | entropyLog
deriving DecidableEq, Repr

/-- Source `log_entropy`: appends one record to the process-wide log. -/
def log_entropy (st : PyState) (name : String) (entropy : Option ℚ)
    (tag : Option String) : PyState :=
  { entropy_log :=
      st.entropy_log ++ [{ symbol := name, entropy := entropy, tag := tag }] }

/-- Module descriptor: the fixed-schema dict built by
`generate_cweb_module`.  Its `"@symbols"` entry stores the `entropy_log`
*object reference* (a Python dict literal stores references, not copies),
modelled as a `LogRef`. -/
structure CwebModule where
  name : String
  version : String
  description : String
  license : String
  sourceType : String
  sourcePath : String
  buildSystem : String
  buildFlags : List String
  dependenciesRuntime : List String
  aiOptimize : Bool
  aiEntropyFeedback : Bool
  splitEnabled : Bool
  splitMaxSizeMb : Nat
  symbols : LogRef
deriving DecidableEq, Repr

/-- Source `generate_cweb_module` (the source defaults `version` to
`"0.1.0"`; it is passed explicitly here).  Note that the construction does
not read the log's contents at all: it only stores the reference. -/
def generate_cweb_module (module_name version : String) : CwebModule :=
  { name := module_name
    version := version
    description := "Auto-generated from T81Lang parser (" ++ module_name ++ ")"
    license := "GPL-3.0"
    sourceType := "local"
    sourcePath := "./" ++ module_name ++ "/"
    buildSystem := "custom"
    buildFlags := ["-DUSE_AXION"]
    dependenciesRuntime := []
    aiOptimize := true
    aiEntropyFeedback := true
    splitEnabled := false
    splitMaxSizeMb := 50
    symbols := LogRef.entropyLog }

/-- Dereferences a list reference in the current process state. -/
def readLogRef (st : PyState) : LogRef → List AnnotationRecord
  | LogRef.entropyLog => st.entropy_log

/-- Content of a descriptor's `"@symbols"` entry as observed in state `st`
(reading `descriptor["@symbols"]` dereferences the stored list object). -/
def moduleSymbols (st : PyState) (m : CwebModule) : List AnnotationRecord :=
  readLogRef st m.symbols

/-- Scenario A source text from the specification. -/
def scenarioA : String :=
  "fn add(a: T81Int, b: T81Int) -> T81Int \x7b let c = a + b; return c; \x7d"

/-- End-to-end pipeline of `main`: tokenize, parse the program starting from
an empty log, emit TISC text.  Each stage's exception propagates as
`none`. -/
def compile_source (s : String) : Option String :=
  match tokenize s with
  | none => none
  | some toks =>
    match parse_program [] toks with
    | none => none
    | some (ast, _) => emit_tisc ast

/-- Projects the expression field of a `Let` node. -/
def letExpr : ASTNode → Option ASTNode
  | ASTNode.Let _ _ e _ _ => some e
  | _ => none

/-- Projects the entropy field of a `Let` node. -/
def letEntropy : ASTNode → Option (Option ℚ)
  | ASTNode.Let _ _ _ e _ => some e
  | _ => none

/-- Projects the tag field of a `Let` node. -/
def letTag : ASTNode → Option (Option String)
  | ASTNode.Let _ _ _ _ tg => some tg
  | _ => none

/-- Modelled from the spec (claim C3's reading): the tokens of a `let`
statement window lying strictly between the (first) equals-sign token and
the trailing semicolon token, to be compared with the window
`tokens[5:-1]` the source actually uses. -/
def claimExprWindow (tokens : List Token) : List Token :=
  ((tokens.dropWhile (fun t => t.2 != "=")).drop 1).dropLast

/-- Windows whose tokens never trigger the annotation scan. -/
def markerFree (xs : List Token) : Prop :=
  ∀ t ∈ xs, t.2 ≠ "@entropy" ∧ t.2 ≠ "@tag"

/-- Token window of `let x = 5t @entropy(2.0) @tag("seed");`. -/
def wTruthy : List Token :=
  [(TokKind.IDENT, "let"), (TokKind.IDENT, "x"), (TokKind.OP, "="),
   (TokKind.NUMBER, "5t"), (TokKind.AT, "@entropy"), (TokKind.LPAREN, "("),
   (TokKind.FLOAT, "2.0"), (TokKind.RPAREN, ")"), (TokKind.AT, "@tag"),
   (TokKind.LPAREN, "("), (TokKind.IDENT, "seed"), (TokKind.RPAREN, ")"),
   (TokKind.SEMICOLON, ";")]

/-- Token window of `let x = 5t @entropy(0.0);`: it carries an `@entropy`
marker with a parenthesized number whose value is `0.0`. -/
def wZeroEntropy : List Token :=
  [(TokKind.IDENT, "let"), (TokKind.IDENT, "x"), (TokKind.OP, "="),
   (TokKind.NUMBER, "5t"), (TokKind.AT, "@entropy"), (TokKind.LPAREN, "("),
   (TokKind.FLOAT, "0.0"), (TokKind.RPAREN, ")"), (TokKind.SEMICOLON, ";")]

/-- Token window of `let c = a + b;` (no type hint). -/
def wNoHint : List Token :=
  [(TokKind.IDENT, "let"), (TokKind.IDENT, "c"), (TokKind.OP, "="),
   (TokKind.IDENT, "a"), (TokKind.OP, "+"), (TokKind.IDENT, "b"),
   (TokKind.SEMICOLON, ";")]

/-- Token window of `let x: T81Int = a + b;` (with type hint). -/
def wWithHint : List Token :=
  [(TokKind.IDENT, "let"), (TokKind.IDENT, "x"), (TokKind.COLON, ":"),
   (TokKind.IDENT, "T81Int"), (TokKind.OP, "="), (TokKind.IDENT, "a"),
   (TokKind.OP, "+"), (TokKind.IDENT, "b"), (TokKind.SEMICOLON, ";")]

/-- Token window of `let x = 5t @entropy(2.0) @entropy(4.0);`: two
`@entropy` occurrences, the later one carrying `4.0`. -/
def wTwoEntropy : List Token :=
  [(TokKind.IDENT, "let"), (TokKind.IDENT, "x"), (TokKind.OP, "="),
   (TokKind.NUMBER, "5t"), (TokKind.AT, "@entropy"), (TokKind.LPAREN, "("),
   (TokKind.FLOAT, "2.0"), (TokKind.RPAREN, ")"), (TokKind.AT, "@entropy"),
   (TokKind.LPAREN, "("), (TokKind.FLOAT, "4.0"), (TokKind.RPAREN, ")"),
   (TokKind.SEMICOLON, ";")]

/-- C1: for the Scenario A source text, tokenizing then parsing was claimed
to yield a `Program` with one `Function` named `add` and the listed IR.  In
fact the pipeline produces nothing: `tokenize` raises `re.error` on every
input (invalid `SYMBOL` range), and even under the scan semantics the
compiled pattern would define, `parse_function` raises `ValueError` because
`tokens.index(('ARROW', '->'))` never finds an `ARROW` token (`->` lexes as
the two `OP` tokens `-`, `>`), so no `Program` and no IR text is ever
produced for this source. -/
theorem c1_scenario_a_crashes :
    compile_source scenarioA = none ∧
    tokenize scenarioA = none ∧
    parse_program [] (scan scenarioA) = none := by
  have h : tokRegexCompiles = false := by decide
  refine ⟨?_, ?_, ?_⟩
  · simp [compile_source, tokenize, h]
  · simp [tokenize, h]
  · rfl

/-- C4 counterexample: the claim says an append after building the
descriptor leaves the already-built descriptor's `@symbols` content
unchanged.  Starting from the empty log, building the descriptor and then
appending one record changes the content observed through the descriptor
from `[]` to one record: the dict stores the log by reference, not as a
snapshot. -/
theorem c4_counterexample_alias :
    moduleSymbols (log_entropy { entropy_log := [] } "x" (some 1) none)
        (generate_cweb_module "m" "0.1.0") ≠
      moduleSymbols { entropy_log := [] } (generate_cweb_module "m" "0.1.0") := by
  decide

/-- C4 amended: the descriptor's `@symbols` entry aliases the process-wide
Annotation Log, so a subsequent append is visible through an already-built
descriptor, whose observed content always extends by exactly the appended
record. -/
theorem c4_amended_symbols_alias_live_log (st : PyState) (mn v name : String)
    (entropy : Option ℚ) (tag : Option String) :
    moduleSymbols (log_entropy st name entropy tag) (generate_cweb_module mn v) =
      moduleSymbols st (generate_cweb_module mn v) ++
        [{ symbol := name, entropy := entropy, tag := tag }] := rfl

/-- C5: a one-token window yields a `Literal` carrying that token's lexeme;
a three-token window with an `OP`-kind middle token yields a `BinaryExpr`
with the three lexemes verbatim; every other window (three tokens with a
non-`OP` middle, or any length other than one and three, including the
empty window) yields `Unknown`. -/
theorem c5_expression_window_shapes (tokens : List Token) :
    (∀ t, tokens = [t] → parse_expression tokens = ASTNode.Literal t.2) ∧
    (∀ a b c, tokens = [a, b, c] →
      (b.1 = TokKind.OP → parse_expression tokens = ASTNode.BinaryExpr a.2 b.2 c.2) ∧
      (b.1 ≠ TokKind.OP → parse_expression tokens = ASTNode.Unknown)) ∧
    (tokens.length ≠ 1 → tokens.length ≠ 3 → parse_expression tokens = ASTNode.Unknown) := by
  refine ⟨?_, ?_, ?_⟩
  · intro t ht
    subst ht
    rfl
  · intro a b c ht
    subst ht
    constructor
    · intro hb
      simp [parse_expression, hb]
    · intro hb
      simp [parse_expression, hb]
  · intro h1 h3
    match tokens with
    | [] => rfl
    | [a] => exact absurd rfl h1
    | [a, b] => rfl
    | [a, b, c] => exact absurd rfl h3
    | a :: b :: c :: d :: rest => rfl

/-- C5 witness: the theorem applied to the concrete one-token window
`[x]`. -/
theorem c5_expression_window_shapes_witness :
    parse_expression [(TokKind.IDENT, "x")] = ASTNode.Literal "x" :=
  (c5_expression_window_shapes [(TokKind.IDENT, "x")]).1 (TokKind.IDENT, "x") rfl

/-- C6: the claim says the tokenizer is total and never signals failure.  In
fact every call of the source's `tokenize` raises `re.error`: the `SYMBOL`
class `[⍺-⍵βγδθσφψΩ]` contains the range `⍺-⍵` whose endpoints are
`U+237A > U+2375`, which Python's `re` rejects when it compiles the pattern
inside `re.finditer`, before a single token is produced. -/
theorem c6_tokenize_always_raises (s : String) : tokenize s = none := by
  have h : tokRegexCompiles = false := by decide
  simp [tokenize, h]

/-- C8: the code generator is a pure function of the AST.  Its embedding
takes only the AST node, because the source function reads nothing but its
argument (in particular not the annotation log); equal nodes therefore
produce identical output text. -/
theorem c8_emit_pure_function (a b : ASTNode) (h : a = b) :
    emit_tisc a = emit_tisc b := by rw [h]

/-- C8 witness: the theorem applied at a concrete node. -/
theorem c8_emit_pure_function_witness :
    emit_tisc (ASTNode.Literal "c") = emit_tisc (ASTNode.Literal "c") :=
  c8_emit_pure_function (ASTNode.Literal "c") (ASTNode.Literal "c") rfl

/-- C10: `emit_tisc` on `Unknown` matches no variant case and returns the
null value, and every `Let` or `Return` node with an `Unknown` expression
emits text containing the literal string `"None"` where the expression's
instructions would appear (the f-string interpolates Python `None` as
`"None"`). -/
theorem c10_unknown_emits_none_text :
    emit_tisc ASTNode.Unknown = none ∧
    (∀ name typeHint entropy tag, ∃ pre post,
      emit_tisc (ASTNode.Let name typeHint ASTNode.Unknown entropy tag) =
        some (pre ++ ("None" ++ post))) ∧
    emit_tisc (ASTNode.Return ASTNode.Unknown) = some ("None" ++ "\nRETURN") := by
  refine ⟨rfl, ?_, rfl⟩
  intro name typeHint entropy tag
  exact ⟨_, _, rfl⟩

/-- When `ARROW` would match at a position, the earlier `OP` alternative
already matches there (its class contains `-`). -/
theorem op_matches_of_arrow {cs : List Char} {x : List Char × List Char}
    (h : matchArrow cs = some x) : ∃ y, matchOp cs = some y := by
  match cs with
  | [] => simp [matchArrow] at h
  | [c] => simp [matchArrow] at h
  | c1 :: c2 :: rest =>
    by_cases hc : c1 = '-' && c2 = '>'
    · simp only [Bool.and_eq_true, decide_eq_true_eq] at hc
      obtain ⟨h1, h2⟩ := hc
      subst h1
      exact ⟨(['-'], c2 :: rest), by simp [matchOp, isOpCh]⟩
    · simp [matchArrow, hc] at h

/-- When `EQUAL` would match at a position, the earlier `OP` alternative
already matches there (its class contains `=`). -/
theorem op_matches_of_equal {cs : List Char} {x : List Char × List Char}
    (h : matchSingle '=' cs = some x) : ∃ y, matchOp cs = some y := by
  match cs with
  | [] => simp [matchSingle] at h
  | c :: rest =>
    by_cases hc : c = '='
    · subst hc
      exact ⟨(['='], rest), by simp [matchOp, isOpCh]⟩
    · simp [matchSingle, hc] at h

/-- The first-match alternation never selects the `ARROW` or `EQUAL`
alternatives: the `OP` alternative precedes them and matches whenever they
would. -/
theorem matchFirst_kind_ne {cs : List Char} {k : TokKind} {l r : List Char}
    (h : matchFirst cs = some (k, l, r)) :
    k ≠ TokKind.ARROW ∧ k ≠ TokKind.EQUAL := by
  unfold matchFirst at h
  repeat' split at h
  all_goals try exact Option.noConfusion h
  all_goals try (cases h; exact ⟨by decide, by decide⟩)
  · exfalso
    have hop : matchOp cs = none := by assumption
    obtain ⟨y, hy⟩ :=
      op_matches_of_arrow (show matchArrow cs = some _ by assumption)
    rw [hop] at hy
    exact Option.noConfusion hy
  · exfalso
    have hop : matchOp cs = none := by assumption
    obtain ⟨y, hy⟩ :=
      op_matches_of_equal (show matchSingle '=' cs = some _ by assumption)
    rw [hop] at hy
    exact Option.noConfusion hy

/-- No token produced by the scan has kind `ARROW` or `EQUAL`, at any
fuel. -/
theorem scanAux_no_arrow_equal (fuel : Nat) :
    ∀ (cs : List Char) (t : Token), t ∈ scanAux fuel cs →
      t.1 ≠ TokKind.ARROW ∧ t.1 ≠ TokKind.EQUAL := by
  induction fuel with
  | zero =>
    intro cs t ht
    simp [scanAux] at ht
  | succ n ih =>
    intro cs t ht
    match cs with
    | [] => simp [scanAux] at ht
    | c :: rest =>
      rw [scanAux] at ht
      match hm : matchFirst (c :: rest) with
      | none =>
        simp only [hm] at ht
        exact ih rest t ht
      | some (k, l, r) =>
        simp only [hm] at ht
        by_cases hw : k = TokKind.WHITESPACE
        · rw [if_pos hw] at ht
          exact ih r t ht
        · rw [if_neg hw] at ht
          rcases List.mem_cons.mp ht with h1 | h2
          · subst h1
            exact matchFirst_kind_ne hm
          · exact ih r t h2

/-- C9: the intended claim has two parts.  On the source as written,
`tokenize "->"` raises `re.error` (the invalid `SYMBOL` range) rather than
returning tokens.  Under the scan semantics the compiled pattern would
define, the claim's reasoning is exactly right: the single-character `OP`
alternative precedes `ARROW` and `EQUAL` in the priority order, so no output
token ever has kind `ARROW` or `EQUAL`, the text `->` lexes as the two `OP`
tokens `-` and `>`, and `=` lexes as one `OP` token. -/
theorem c9_arrow_equal_never_emitted :
    tokenize "->" = none ∧
    scan "->" = [(TokKind.OP, "-"), (TokKind.OP, ">")] ∧
    scan "=" = [(TokKind.OP, "=")] ∧
    ∀ s : String, ((scan s).all
      (fun t => decide (t.1 ≠ TokKind.ARROW) && decide (t.1 ≠ TokKind.EQUAL))) = true := by
  refine ⟨?_, rfl, rfl, ?_⟩
  · have h : tokRegexCompiles = false := by decide
    simp [tokenize, h]
  · intro s
    rw [List.all_eq_true]
    intro t ht
    obtain ⟨h1, h2⟩ := scanAux_no_arrow_equal s.data.length s.data t ht
    simp [h1, h2]

/-- Characterization of every successful `parse_let_statement` call: the
window starts with three tokens led by `let`, the type hint comes from the
positional conditional, the expression from `tokens[5:-1]`, the annotation
pair from the window scan, and the log grows by one record exactly when the
scanned pair is truthy. -/
theorem parse_let_success {log : List AnnotationRecord} {tokens : List Token}
    {node : ASTNode} {log2 : List AnnotationRecord}
    (h : parse_let_statement log tokens = some (node, log2)) :
    ∃ t0 t1 t2 rest typeHint entropy tag,
      tokens = t0 :: t1 :: t2 :: rest ∧ t0.2 = "let" ∧
      (if t2.1 = TokKind.COLON then (rest.head?).map (fun t => some t.2)
        else some none) = some typeHint ∧
      scanAnnots tokens = some (entropy, tag) ∧
      node = ASTNode.Let t1.2 typeHint
        (parse_expression ((rest.drop 2).dropLast)) entropy tag ∧
      log2 = (if entTruthy entropy || tagTruthy tag then
          log ++ [{ symbol := t1.2, entropy := entropy, tag := tag }]
        else log) := by
  match tokens with
  | [] => simp [parse_let_statement] at h
  | [t0] => simp [parse_let_statement] at h
  | [t0, t1] => simp [parse_let_statement] at h
  | t0 :: t1 :: t2 :: rest =>
    rw [parse_let_statement] at h
    split at h
    case isFalse => exact Option.noConfusion h
    case isTrue hlet =>
      split at h
      case h_1 => exact Option.noConfusion h
      case h_2 typeHint hth =>
        split at h
        case h_1 => exact Option.noConfusion h
        case h_2 entropy tag hscan =>
          cases h
          exact ⟨t0, t1, t2, rest, typeHint, entropy, tag, rfl, hlet, hth,
            hscan, rfl, rfl⟩

/-- C2 counterexample: the window of `let x = 5t @entropy(0.0);` carries an
`@entropy` marker with a parenthesized number, so the claim requires exactly
one Annotation Record to be appended — but the source's `if entropy or tag:`
treats the value `0.0` as falsy and appends nothing: the parse succeeds with
the entropy stored in the `Let` node and an unchanged (empty) log. -/
theorem c2_counterexample_zero_entropy :
    scanAnnots wZeroEntropy = some (some 0, none) ∧
    parse_let_statement [] wZeroEntropy =
      some (ASTNode.Let "x" none ASTNode.Unknown (some 0) none, []) :=
  ⟨rfl, rfl⟩

/-- C2 amended: parsing a `let` statement window appends exactly one
Annotation Record if and only if the scanned annotation pair is truthy in
Python's sense — the entropy value is present and nonzero, or the tag is
present and nonempty.  A window whose only marker value is the entropy
`0.0` (or the empty tag) appends nothing; windows with no marker also
append nothing; every append places the single new record at the end of the
log, preserving encounter order. -/
theorem c2_record_appended_iff_truthy {log : List AnnotationRecord}
    {tokens : List Token} {node : ASTNode} {log2 : List AnnotationRecord}
    (h : parse_let_statement log tokens = some (node, log2)) :
    ∃ entropy tag name,
      scanAnnots tokens = some (entropy, tag) ∧
      ((entTruthy entropy || tagTruthy tag) = true →
        log2 = log ++ [{ symbol := name, entropy := entropy, tag := tag }]) ∧
      ((entTruthy entropy || tagTruthy tag) = false → log2 = log) := by
  obtain ⟨t0, t1, t2, rest, th, e, tg, htok, hlet, hth, hscan, hnode, hlog⟩ :=
    parse_let_success h
  refine ⟨e, tg, t1.2, hscan, ?_, ?_⟩
  · intro hb
    rw [hlog]
    simp [hb]
  · intro hb
    rw [hlog]
    simp [hb]

/-- C2 witness: the amended theorem applied to the concrete window of
`let x = 5t @entropy(2.0) @tag("seed");`, parsed against the empty log. -/
theorem c2_record_appended_iff_truthy_witness :
    ∃ entropy tag name,
      scanAnnots wTruthy = some (entropy, tag) ∧
      ((entTruthy entropy || tagTruthy tag) = true →
        [{ symbol := "x", entropy := some 2, tag := some "seed" }] =
          ([] : List AnnotationRecord) ++
            [{ symbol := name, entropy := entropy, tag := tag }]) ∧
      ((entTruthy entropy || tagTruthy tag) = false →
        [{ symbol := "x", entropy := some 2, tag := some "seed" }] =
          ([] : List AnnotationRecord)) :=
  @c2_record_appended_iff_truthy [] wTruthy
    (ASTNode.Let "x" none ASTNode.Unknown (some 2) (some "seed"))
    [{ symbol := "x", entropy := some 2, tag := some "seed" }] rfl

/-- C3 counterexample: in the window of `let c = a + b;` (no type hint) the
tokens strictly between the equals sign and the trailing semicolon are
`a + b`, whose parse is the `BinaryExpr a + b` — but the source always
slices `tokens[5:-1]`, which here is just `b`, so the stored expression is
`Literal "b"`, a different node. -/
theorem c3_counterexample_missing_hint :
    parse_let_statement [] wNoHint =
      some (ASTNode.Let "c" none (ASTNode.Literal "b") none none, []) ∧
    claimExprWindow wNoHint =
      [(TokKind.IDENT, "a"), (TokKind.OP, "+"), (TokKind.IDENT, "b")] ∧
    parse_expression (claimExprWindow wNoHint) = ASTNode.BinaryExpr "a" "+" "b" ∧
    (ASTNode.Literal "b" : ASTNode) ≠ ASTNode.BinaryExpr "a" "+" "b" :=
  ⟨rfl, rfl, rfl, fun hcon => ASTNode.noConfusion hcon⟩

/-- C3 amended: the stored expression always comes from `tokens[5:-1]`.
This coincides with the tokens strictly between the equals sign and the
trailing semicolon exactly when the window carries a type hint at positions
2 and 3, so that the equals sign sits at position 4; without a type hint the
equals sign sits at position 2 and the slice skips the first two expression
tokens.  Stated here for the type-hint case, where the claim holds. -/
theorem c3_amended_expression_window {log : List AnnotationRecord}
    {t0 t1 t2 t3 t4 : Token} {rest : List Token} {node : ASTNode}
    {log2 : List AnnotationRecord}
    (hcolon : t2.1 = TokKind.COLON) (heq : t4.2 = "=")
    (h1 : t1.2 ≠ "=") (h2 : t2.2 ≠ "=") (h3 : t3.2 ≠ "=")
    (h : parse_let_statement log (t0 :: t1 :: t2 :: t3 :: t4 :: rest) =
      some (node, log2)) :
    ∃ entropy tag,
      node = ASTNode.Let t1.2 (some t3.2)
        (parse_expression (claimExprWindow (t0 :: t1 :: t2 :: t3 :: t4 :: rest)))
        entropy tag := by
  obtain ⟨s0, s1, s2, srest, th, e, tg, htok, hlet, hth, hscan, hnode, hlog⟩ :=
    parse_let_success h
  injection htok with ea htok1
  injection htok1 with eb htok2
  injection htok2 with ec htok3
  subst ea
  subst eb
  subst ec
  subst htok3
  have e0 : t0.2 ≠ "=" := by
    rw [hlet]
    decide
  have hb0 : (t0.2 != "=") = true := by simp [bne_iff_ne, e0]
  have hb1 : (t1.2 != "=") = true := by simp [bne_iff_ne, h1]
  have hb2 : (t2.2 != "=") = true := by simp [bne_iff_ne, h2]
  have hb3 : (t3.2 != "=") = true := by simp [bne_iff_ne, h3]
  have hb4 : (t4.2 != "=") = false := by simp [heq]
  have hw : claimExprWindow (t0 :: t1 :: t2 :: t3 :: t4 :: rest) = rest.dropLast := by
    unfold claimExprWindow
    simp [List.dropWhile_cons, hb0, hb1, hb2, hb3, hb4]
  rw [if_pos hcolon] at hth
  simp only [List.head?_cons, Option.map_some] at hth
  injection hth with hth2
  refine ⟨e, tg, ?_⟩
  rw [hnode, hw, ← hth2]
  simp

/-- C3 witness: the amended theorem applied to the concrete window of
`let x: T81Int = a + b;`, where the stored expression is indeed the parse of
the tokens between the equals sign and the semicolon. -/
theorem c3_amended_expression_window_witness :
    ∃ entropy tag,
      ASTNode.Let "x" (some "T81Int") (ASTNode.BinaryExpr "a" "+" "b") none none =
        ASTNode.Let "x" (some "T81Int")
          (parse_expression (claimExprWindow wWithHint)) entropy tag :=
  @c3_amended_expression_window []
    (TokKind.IDENT, "let") (TokKind.IDENT, "x") (TokKind.COLON, ":")
    (TokKind.IDENT, "T81Int") (TokKind.OP, "=")
    [(TokKind.IDENT, "a"), (TokKind.OP, "+"), (TokKind.IDENT, "b"),
     (TokKind.SEMICOLON, ";")]
    (ASTNode.Let "x" (some "T81Int") (ASTNode.BinaryExpr "a" "+" "b") none none)
    [] rfl rfl (by decide) (by decide) (by decide) rfl

/-- The annotation scan ignores a marker-free prefix, leaving both
accumulators untouched. -/
theorem scanA_skip : ∀ (xs ys : List Token) (e : Option ℚ) (tg : Option String),
    markerFree xs → scanA (xs ++ ys) e tg = scanA ys e tg := by
  intro xs
  induction xs with
  | nil =>
    intro ys e tg h
    rfl
  | cons t xs ih =>
    intro ys e tg h
    have ht := h t (List.mem_cons_self t xs)
    have hxs : markerFree xs := fun u hu => h u (List.mem_cons_of_mem t hu)
    simp only [List.cons_append, scanA]
    rw [if_neg ht.1, if_neg ht.2]
    exact ih ys e tg hxs

/-- The annotation scan of a marker-free window returns the accumulators. -/
theorem scanA_done (xs : List Token) (e : Option ℚ) (tg : Option String)
    (h : markerFree xs) : scanA xs e tg = some (e, tg) := by
  have hs := scanA_skip xs [] e tg h
  rw [List.append_nil] at hs
  exact hs

/-- Passing one well-formed `@entropy ( value` occurrence overwrites the
entropy accumulator with that value. -/
theorem scanA_entropy_hit (a l v : Token) (ys : List Token) (e : Option ℚ)
    (tg : Option String) (q : ℚ)
    (ha : a.2 = "@entropy") (hl : l.1 = TokKind.LPAREN)
    (hv : pyFloatOfString v.2 = some q)
    (hle : l.2 ≠ "@entropy") (hlt : l.2 ≠ "@tag")
    (hve : v.2 ≠ "@entropy") (hvt : v.2 ≠ "@tag") :
    scanA (a :: l :: v :: ys) e tg = scanA ys (some q) tg := by
  simp [scanA, ha, hl, hv, hle, hlt, hve, hvt]

/-- Passing one well-formed `@tag ( value` occurrence overwrites the tag
accumulator with the stripped value. -/
theorem scanA_tag_hit (a l v : Token) (ys : List Token) (e : Option ℚ)
    (tg : Option String)
    (ha : a.2 = "@tag") (hl : l.1 = TokKind.LPAREN)
    (hle : l.2 ≠ "@entropy") (hlt : l.2 ≠ "@tag")
    (hve : v.2 ≠ "@entropy") (hvt : v.2 ≠ "@tag") :
    scanA (a :: l :: v :: ys) e tg = scanA ys e (some (pyStripQuotes v.2)) := by
  simp [scanA, ha, hl, hle, hlt, hve, hvt]

/-- C7: when a `let` window contains more than one `@entropy` marker
followed by an open parenthesis (respectively more than one such `@tag`
marker), the value recorded in the `Let` node — and in the Annotation
Record when one is appended — comes from the last occurrence in
left-to-right scan order, overwriting earlier ones.  The window is given as
`pre ++ occurrence1 ++ mid ++ occurrence2 ++ post` with every token outside
the two occurrences free of marker lexemes. -/
theorem c7_last_marker_occurrence_wins :
    (∀ (log : List AnnotationRecord) (pre mid post : List Token)
        (a1 l1 v1 a2 l2 v2 : Token) (q1 q2 : ℚ) (node : ASTNode)
        (log2 : List AnnotationRecord),
      markerFree pre → markerFree mid → markerFree post →
      markerFree [l1, v1, l2, v2] →
      a1.2 = "@entropy" → l1.1 = TokKind.LPAREN →
      pyFloatOfString v1.2 = some q1 →
      a2.2 = "@entropy" → l2.1 = TokKind.LPAREN →
      pyFloatOfString v2.2 = some q2 →
      parse_let_statement log
          (pre ++ a1 :: l1 :: v1 :: (mid ++ a2 :: l2 :: v2 :: post)) =
        some (node, log2) →
      letEntropy node = some (some q2) ∧
        ∀ r, log2 = log ++ [r] → r.entropy = some q2) ∧
    (∀ (log : List AnnotationRecord) (pre mid post : List Token)
        (a1 l1 v1 a2 l2 v2 : Token) (node : ASTNode)
        (log2 : List AnnotationRecord),
      markerFree pre → markerFree mid → markerFree post →
      markerFree [l1, v1, l2, v2] →
      a1.2 = "@tag" → l1.1 = TokKind.LPAREN →
      a2.2 = "@tag" → l2.1 = TokKind.LPAREN →
      parse_let_statement log
          (pre ++ a1 :: l1 :: v1 :: (mid ++ a2 :: l2 :: v2 :: post)) =
        some (node, log2) →
      letTag node = some (some (pyStripQuotes v2.2)) ∧
        ∀ r, log2 = log ++ [r] → r.tag = some (pyStripQuotes v2.2)) := by
  constructor
  · intro log pre mid post a1 l1 v1 a2 l2 v2 q1 q2 node log2 hpre hmid hpost
      hfour ha1 hl1 hv1 ha2 hl2 hv2 h
    obtain ⟨s0, s1, s2, srest, th, e, tg, htok, hlet, hth, hscan, hnode, hlog⟩ :=
      parse_let_success h
    have hml1 := hfour l1 (by simp)
    have hmv1 := hfour v1 (by simp)
    have hml2 := hfour l2 (by simp)
    have hmv2 := hfour v2 (by simp)
    have hcomp : scanAnnots
        (pre ++ a1 :: l1 :: v1 :: (mid ++ a2 :: l2 :: v2 :: post)) =
        some (some q2, none) := by
      rw [scanAnnots, scanA_skip pre _ none none hpre,
        scanA_entropy_hit a1 l1 v1 _ none none q1 ha1 hl1 hv1
          hml1.1 hml1.2 hmv1.1 hmv1.2,
        scanA_skip mid _ (some q1) none hmid,
        scanA_entropy_hit a2 l2 v2 _ (some q1) none q2 ha2 hl2 hv2
          hml2.1 hml2.2 hmv2.1 hmv2.2,
        scanA_done post (some q2) none hpost]
    rw [hcomp] at hscan
    simp only [Option.some.injEq, Prod.mk.injEq] at hscan
    obtain ⟨he, htg⟩ := hscan
    constructor
    · rw [hnode, ← he]
      rfl
    · intro r hr
      rw [hlog] at hr
      by_cases hb : (entTruthy e || tagTruthy tg) = true
      · rw [if_pos hb] at hr
        have h2 := congrArg (List.drop log.length) hr
        rw [List.drop_left, List.drop_left] at h2
        injection h2 with h3 h4
        rw [← h3, ← he]
      · rw [if_neg hb] at hr
        have h4 := congrArg List.length hr
        simp at h4
  · intro log pre mid post a1 l1 v1 a2 l2 v2 node log2 hpre hmid hpost
      hfour ha1 hl1 ha2 hl2 h
    obtain ⟨s0, s1, s2, srest, th, e, tg, htok, hlet, hth, hscan, hnode, hlog⟩ :=
      parse_let_success h
    have hml1 := hfour l1 (by simp)
    have hmv1 := hfour v1 (by simp)
    have hml2 := hfour l2 (by simp)
    have hmv2 := hfour v2 (by simp)
    have hcomp : scanAnnots
        (pre ++ a1 :: l1 :: v1 :: (mid ++ a2 :: l2 :: v2 :: post)) =
        some (none, some (pyStripQuotes v2.2)) := by
      rw [scanAnnots, scanA_skip pre _ none none hpre,
        scanA_tag_hit a1 l1 v1 _ none none ha1 hl1
          hml1.1 hml1.2 hmv1.1 hmv1.2,
        scanA_skip mid _ none (some (pyStripQuotes v1.2)) hmid,
        scanA_tag_hit a2 l2 v2 _ none (some (pyStripQuotes v1.2)) ha2 hl2
          hml2.1 hml2.2 hmv2.1 hmv2.2,
        scanA_done post none (some (pyStripQuotes v2.2)) hpost]
    rw [hcomp] at hscan
    simp only [Option.some.injEq, Prod.mk.injEq] at hscan
    obtain ⟨he, htg⟩ := hscan
    constructor
    · rw [hnode, ← htg]
      rfl
    · intro r hr
      rw [hlog] at hr
      by_cases hb : (entTruthy e || tagTruthy tg) = true
      · rw [if_pos hb] at hr
        have h2 := congrArg (List.drop log.length) hr
        rw [List.drop_left, List.drop_left] at h2
        injection h2 with h3 h4
        rw [← h3, ← htg]
      · rw [if_neg hb] at hr
        have h4 := congrArg List.length hr
        simp at h4

/-- C7 witness: the entropy half of the theorem applied to the concrete
window of `let x = 5t @entropy(2.0) @entropy(4.0);`, whose recorded entropy
is `4`, the value of the last occurrence. -/
theorem c7_last_marker_occurrence_wins_witness :
    letEntropy (ASTNode.Let "x" none ASTNode.Unknown (some 4) none) =
      some (some 4) ∧
    ∀ r, [{ symbol := "x", entropy := some 4, tag := none }] =
        ([] : List AnnotationRecord) ++ [r] → r.entropy = some 4 :=
  c7_last_marker_occurrence_wins.1 []
    [(TokKind.IDENT, "let"), (TokKind.IDENT, "x"), (TokKind.OP, "="),
     (TokKind.NUMBER, "5t")]
    [(TokKind.RPAREN, ")")]
    [(TokKind.RPAREN, ")"), (TokKind.SEMICOLON, ";")]
    (TokKind.AT, "@entropy") (TokKind.LPAREN, "(") (TokKind.FLOAT, "2.0")
    (TokKind.AT, "@entropy") (TokKind.LPAREN, "(") (TokKind.FLOAT, "4.0")
    2 4
    (ASTNode.Let "x" none ASTNode.Unknown (some 4) none)
    [{ symbol := "x", entropy := some 4, tag := none }]
    (by unfold markerFree; decide) (by unfold markerFree; decide)
    (by unfold markerFree; decide) (by unfold markerFree; decide)
    rfl rfl rfl rfl rfl rfl rfl
